import Mathlib

/-!
# hass-floorplan: a verification development

A shallow embedding of the synchronisation engine of `glasslabs/hass-floorplan`:

* `client.go`: `stateToBool`, `Client.States`, the reader loop of `Client.Events`;
* `hass.go`: `Module.updateState`, and a step semantics of the goroutines
  `listen` / `readStates` / `syncStates` / `run` / `Close` over Go channels;
* `main.go`: `Module.updateState` of the wasm build.

Bytes are natural numbers; text literals of the source are turned into bytes with `bytes`.
Collaborators that live outside the repository (the JSON decoder, the HTTP transport,
the rendering surface) are parameters or small explicit state machines.
-/

set_option linter.dupNamespace false
set_option linter.unusedVariables false

namespace Floorplan

/-! ## client.go -/

/-- State is the state of an entity (`client.go`, `type State`); a nil `*bool` is `none`. -/
structure State where
  ID : String
  State : Option Bool
deriving DecidableEq

/-- The JSON row `eventState` of `client.go`. -/
structure eventState where
  EntityID : String
  State : String
deriving DecidableEq

/-- The JSON object `eventChanged` of `client.go`; `NewState` is the field `Data.NewState`. -/
structure eventChanged where
  EventType : String
  NewState : eventState
deriving DecidableEq

/-- The function `stateToBool` of `client.go`: a two-case switch, then `return nil`. -/
def stateToBool (state : String) : Option Bool :=
  if state = "on" ∨ state = "open" then some true
  else if state = "off" ∨ state = "closed" then some false
  else none

/-- The bytes of an ASCII literal of the source. -/
def bytes (s : String) : List Nat := s.toList.map Char.toNat

/-- The line feed `'\n'`, the delimiter handed to `ReadBytes`. -/
def LF : Nat := 10

/-- One call of `buf.ReadBytes('\n')` on the response body: either a complete line, given here
by its content before the delimiter, or a failed read (end of body, transport error) that
hands back whatever was read before the failure. -/
inductive Read where
  | line (content : List Nat)
  | err (rest : List Nat)
deriving DecidableEq

/-- The pair `(line, err != nil)` returned by `buf.ReadBytes('\n')`: the returned data ends in
the delimiter exactly when there is no error. -/
def ReadBytes : Read → List Nat × Bool
  | .line content => (content ++ [LF], false)
  | .err rest => (rest, true)

/-- The goroutine of `Client.Events` (`client.go`, the `for` loop), run over the successive
results of `ReadBytes`. The result is the sequence of records sent on `ch` and whether the
deferred `close(ch)` has run; when the reads run out the goroutine is still waiting in
`ReadBytes` and the channel is open. `unmarshal` is `json.Unmarshal` into an `eventChanged`. -/
def Events (unmarshal : List Nat → Option eventChanged) : List Read → List State × Bool
  | [] => ([], false)
  | r :: rest =>
    let (line, err) := ReadBytes r
    if err then ([], true)
    else if line.length < 6 ∨ line.take 6 ≠ bytes "data: " then Events unmarshal rest
    else if line.drop 6 = bytes "ping\n" then Events unmarshal rest
    else
      match unmarshal (line.drop 6) with
      | none => ([], true)
      | some event =>
        if event.EventType ≠ "state_changed" then Events unmarshal rest
        else
          let (out, closed) := Events unmarshal rest
          (⟨event.NewState.EntityID, stateToBool event.NewState.State⟩ :: out, closed)

/-- The errors built by `fmt.Errorf` in `Client.States`, one constructor per message. -/
inductive ClientError where
  | parsingStateUrl (cause : String)
  | creatingRequest (cause : String)
  | sendingRequest (cause : String)
  | unexpectedResponseCode (code : Int)
  | parsingResponseData (cause : String)
deriving DecidableEq

/-- The part of `*http.Response` that `Client.States` reads. -/
structure Response where
  StatusCode : Int
  Body : List Nat
deriving DecidableEq

/-- The collaborators of `Client.States`: `baseURL.Parse`, `http.NewRequestWithContext`
(with the bearer header set on the request), `c.client.Do` and the JSON decoder of the body. -/
structure Transport where
  Parse : String → Except String String
  NewRequest : String → String → Except String String
  Do : String → Except String Response
  Decode : List Nat → Except String (List eventState)

/-- The method `Client.States` of `client.go`; the Go result `([]State, error)` is the pair of
the record slice (nil is `[]`) and the optional error. -/
def States (t : Transport) : List State × Option ClientError :=
  match t.Parse "api/states" with
  | .error e => ([], some (.parsingStateUrl e))
  | .ok u =>
    match t.NewRequest "GET" u with
    | .error e => ([], some (.creatingRequest e))
    | .ok req =>
      match t.Do req with
      | .error e => ([], some (.sendingRequest e))
      | .ok resp =>
        if resp.StatusCode ≠ 200 then ([], some (.unexpectedResponseCode resp.StatusCode))
        else
          match t.Decode resp.Body with
          | .error e => ([], some (.parsingResponseData e))
          | .ok eventStates =>
            (eventStates.foldl (fun states state =>
                states ++ [⟨state.EntityID, stateToBool state.State⟩]) [], none)

/-! ## The rendering surface and `updateState` (hass.go, main.go) -/

/-- The rendering surface as the engine sees it: `find` locates the element a lookup key
denotes (absent is `none`), `classList` is the ordered token list of each element. -/
structure Dom where
  find : String → Option Nat
  classList : Nat → List String

/-- Replace the class list of one element. -/
def Dom.setClassList (ui : Dom) (el : Nat) (cl : List String) : Dom :=
  { ui with classList := fun e => if e = el then cl else ui.classList e }

/-- The token-list operation `classList.remove(tokens...)`: every listed token is removed. -/
def classListRemove (cl : List String) (tokens : List String) : List String :=
  cl.filter (fun c => decide (c ∉ tokens))

/-- The token-list operation `classList.add(token)`: appended unless already present. -/
def classListAdd (cl : List String) (token : String) : List String :=
  if token ∈ cl then cl else cl ++ [token]

/-- The calls a module issues to the rendering surface. -/
inductive UICall where
  | lookup (key : String)
  | remove (key : String) (tokens : List String)
  | add (key : String) (token : String)
deriving DecidableEq

/-- The three scripts `hass.go` hands to `ui.Eval`, after formatting with the element id. -/
inductive Script where
  | getElement (id : String)
  | classListRemove (id : String) (tokens : List String)
  | classListAdd (id : String) (token : String)
deriving DecidableEq

/-- The call `m.ui.Eval(script)`: the new surface, the value `v` (the located element for a
lookup, nothing for a class mutation) and whether `err != nil`. A class mutation of an element
that is not there fails and changes nothing. -/
def Eval (ui : Dom) : Script → Dom × Option Nat × Bool
  | .getElement id => (ui, ui.find id, false)
  | .classListRemove id tokens =>
    match ui.find id with
    | none => (ui, none, true)
    | some el => (ui.setClassList el (classListRemove (ui.classList el) tokens), none, false)
  | .classListAdd id token =>
    match ui.find id with
    | none => (ui, none, true)
    | some el => (ui.setClassList el (classListAdd (ui.classList el) token), none, false)

/-- What one `updateState` leaves behind: the surface, the renderer calls it issued in order,
and the messages it logged with `m.log.Error`. -/
structure Applied where
  ui : Dom
  calls : List UICall
  logged : List String

/-- The lookup `if mapping, ok := m.cfg.Mapping[id]; ok { id = mapping }`. -/
def resolve (Mapping : String → Option String) (id : String) : String :=
  match Mapping id with
  | some mapping => mapping
  | none => id

/-- The local `state` of `Module.updateState` in `hass.go` (lines 188-194). -/
def stateClass (s : Option Bool) : String :=
  match s with
  | none => "unavailable"
  | some b => if b then "on" else "off"

namespace Hass

/-- The method `Module.updateState` of `hass.go`. -/
def updateState (Mapping : String → Option String) (s : State) (ui : Dom) : Applied :=
  let id := resolve Mapping s.ID
  let (ui0, v, err0) := Eval ui (.getElement id)
  let log0 := if err0 then ["could not find object"] else []
  match v with
  | none => ⟨ui0, [.lookup id], log0⟩
  | some _ =>
    let state := stateClass s.State
    let (ui1, _, err1) := Eval ui0 (.classListRemove id ["on", "off", "unavailable"])
    let log1 := if err1 then log0 ++ ["could not update state"] else log0
    let (ui2, _, err2) := Eval ui1 (.classListAdd id state)
    let log2 := if err2 then log1 ++ ["could not update state"] else log1
    ⟨ui2, [.lookup id, .remove id ["on", "off", "unavailable"], .add id state], log2⟩

end Hass

namespace Main

/-- The call `strings.ReplaceAll(id, ".", "\\.")`. -/
def escapeDots (id : String) : String :=
  String.mk (id.toList.map (fun c => if c = '.' then ['\\', '.'] else [c])).flatten

/-- The local `actualState` of `Module.updateState` in `main.go` (lines 154-160). -/
def actualState (state : String) : String :=
  if state ≠ "unavailable" ∧ state ≠ "unknown" then
    if state = "on" ∨ state = "open" then "on" else "off"
  else "unavailable"

/-- The selector handed to `QuerySelector`. -/
def selector (Mapping : String → Option String) (id : String) : String :=
  "#" ++ escapeDots (resolve Mapping id)

/-- The method `Module.updateState` of `main.go`: `QuerySelector`, then three `Remove` calls
and one `Add` on the class list of the element found. -/
def updateState (Mapping : String → Option String) (id state : String) (ui : Dom) : Applied :=
  let sel := selector Mapping id
  let actual := actualState state
  match ui.find sel with
  | none => ⟨ui, [.lookup sel], []⟩
  | some elem =>
    let ui1 := ui.setClassList elem (classListRemove (ui.classList elem) ["on"])
    let ui2 := ui1.setClassList elem (classListRemove (ui1.classList elem) ["off"])
    let ui3 := ui2.setClassList elem (classListRemove (ui2.classList elem) ["unavailable"])
    let ui4 := ui3.setClassList elem (classListAdd (ui3.classList elem) actual)
    ⟨ui4, [.lookup sel, .remove sel ["on"], .remove sel ["off"], .remove sel ["unavailable"],
      .add sel actual], []⟩

end Main

/-! ## The stream of `Client.Events` as the specification words it -/

/-- What the specification makes of one line of the stream. -/
inductive Frame where
  | ignored
  | stop
  | emit (r : State)
deriving DecidableEq

/-- The payload of a line: what follows the six bytes of `"data: "`, without the delimiter. -/
def payload (content : List Nat) : List Nat := content.drop 6

/-- The specification of one read: a read error stops the sequence; a line that does not begin
with `"data: "` is skipped; a `"ping"` payload is skipped; a payload that does not decode stops
the sequence; an event that is not `"state_changed"` is skipped; any other event is emitted. -/
def classify (decode : List Nat → Option eventChanged) : Read → Frame
  | .err _ => .stop
  | .line content =>
    if ¬ (bytes "data: " <+: content) then .ignored
    else if payload content = bytes "ping" then .ignored
    else
      match decode (payload content) with
      | none => .stop
      | some event =>
        if event.EventType = "state_changed" then
          .emit ⟨event.NewState.EntityID, stateToBool event.NewState.State⟩
        else .ignored

/-- The record a frame carries, if any. -/
def Frame.record : Frame → Option State
  | .emit r => some r
  | _ => none

/-- The reference of the specification: the reads before the first stopping one, in order,
each giving its record if it has one; the channel is closed when some read stops. -/
def eventsReference (decode : List Nat → Option eventChanged) (reads : List Read) :
    List State × Bool :=
  ((reads.takeWhile (fun r => decide (classify decode r ≠ .stop))).filterMap
      (fun r => (classify decode r).record),
    reads.any (fun r => decide (classify decode r = .stop)))

/-- Strip the trailing line feeds of a byte string. -/
def trimLF (p : List Nat) : List Nat := (p.reverse.dropWhile (fun b => decide (b = LF))).reverse

/-- A stand-in for `json.Unmarshal` on three payloads, used to run the loop on sample streams:
a state change of `light.kitchen` to `on`, an event of another type, and `null`; anything
else is malformed. Trailing line feeds are insignificant, as in JSON. -/
def sampleUnmarshal (p : List Nat) : Option eventChanged :=
  if trimLF p = bytes "\x7b\"event_type\":\"state_changed\",\"data\":\x7b\"new_state\":\x7b\"entity_id\":\"light.kitchen\",\"state\":\"on\"\x7d\x7d\x7d" then
    some ⟨"state_changed", ⟨"light.kitchen", "on"⟩⟩
  else if trimLF p = bytes "\x7b\"event_type\":\"call_service\"\x7d" then
    some ⟨"call_service", ⟨"", ""⟩⟩
  else if trimLF p = bytes "null" then some ⟨"", ⟨"", ""⟩⟩
  else none

/-- A sample stream: a comment line, a keep-alive, a state change, an event of another type,
a malformed payload, and a state change that comes too late. -/
def sampleReads : List Read :=
  [.line (bytes ": hello"),
   .line (bytes "data: ping"),
   .line (bytes "data: \x7b\"event_type\":\"state_changed\",\"data\":\x7b\"new_state\":\x7b\"entity_id\":\"light.kitchen\",\"state\":\"on\"\x7d\x7d\x7d"),
   .line (bytes "data: \x7b\"event_type\":\"call_service\"\x7d"),
   .line (bytes "data: \x7b\"event_type\":"),
   .line (bytes "data: \x7b\"event_type\":\"state_changed\",\"data\":\x7b\"new_state\":\x7b\"entity_id\":\"light.kitchen\",\"state\":\"on\"\x7d\x7d\x7d")]

/-! ## `Client.States` as the specification words it -/

/-- The rows of a snapshot, when there is one: the request is built and sent, the status is
200 and the body decodes; `none` in every other case. -/
def snapshotRows (t : Transport) : Option (List eventState) :=
  match t.Parse "api/states" with
  | .error _ => none
  | .ok u =>
    match t.NewRequest "GET" u with
    | .error _ => none
    | .ok req =>
      match t.Do req with
      | .error _ => none
      | .ok resp =>
        if resp.StatusCode = 200 then
          match t.Decode resp.Body with
          | .error _ => none
          | .ok rows => some rows
        else none

/-! ## Channels and the goroutines of hass.go -/

/-- The two run-time panics of channel operations. -/
inductive Panic where
  | closeOfClosedChannel
  | sendOnClosedChannel
deriving DecidableEq

/-- A Go channel: its buffer, oldest element first, its capacity and whether it is closed. -/
structure Chan (α : Type) where
  buf : List α
  cap : Nat
  closed : Bool
deriving DecidableEq

/-- The outcome of attempting a channel operation. -/
inductive Attempt (α : Type) where
  | done (a : α)
  | blocked
  | panics (p : Panic)
deriving DecidableEq

/-- The statement `ch <- v`: panics on a closed channel, blocks while the buffer is full. -/
def Chan.send {α : Type} (ch : Chan α) (v : α) : Attempt (Chan α) :=
  if ch.closed then .panics .sendOnClosedChannel
  else if ch.buf.length < ch.cap then .done { ch with buf := ch.buf ++ [v] }
  else .blocked

/-- The expression `v, ok := <-ch`: the oldest buffered element, or `ok == false` once the
channel is closed and drained; blocks on an open empty channel. -/
def Chan.recv {α : Type} (ch : Chan α) : Attempt (Option α × Chan α) :=
  match ch.buf with
  | v :: rest => .done (some v, { ch with buf := rest })
  | [] => if ch.closed then .done (none, ch) else .blocked

/-- The statement `close(ch)`: panics when the channel is closed already. -/
def Chan.close {α : Type} (ch : Chan α) : Attempt (Chan α) :=
  if ch.closed then .panics .closeOfClosedChannel else .done { ch with closed := true }

/-- The calls to the client that the engine issues. -/
inductive ClientCall where
  | States
  | Events
deriving DecidableEq

/-- Where an execution of `Module.syncStates` stands: about to call `c.States`, inside the
`range` loop with the records still to send, or returned. -/
inductive SyncPc where
  | callStates
  | range (states : List State)
  | returned
deriving DecidableEq

/-- Where `Module.readStates` stands: at its `select`, or at `m.stateCh <- state`. -/
inductive ReadPc where
  | select
  | send (state : State)
deriving DecidableEq

/-- Where `Module.listen` stands, by the statement it executes next. -/
inductive ListenPc where
  | syncStates (pc : SyncPc)
  | checkDone
  | events
  | goSyncStates
  | retryWait
  | readStates (pc : ReadPc)
  | reconnectWait
  | returned
deriving DecidableEq

/-- Where `Module.Close` stands: not called, at `close(m.done)`, at `m.wg.Wait()`, at
`close(m.stateCh)`, or returned. -/
inductive ClosePc where
  | idle
  | closeDone
  | wgWait
  | closeStateCh
  | returned
deriving DecidableEq

/-- The whole engine: the two channels and the wait group of `Module`, the goroutine `listen`,
the goroutines started by `go m.syncStates(c)`, the caller of `Close`, the goroutine `run`
(whether it still ranges over the queue, and the records it has handed to `updateState`),
the client calls issued so far, and the panic that crashed the process, if any. -/
structure Sys where
  done : Chan Unit
  stateCh : Chan State
  wg : Nat
  listener : ListenPc
  asyncs : List SyncPc
  closer : ClosePc
  running : Bool
  applied : List State
  calls : List ClientCall
  panicked : Option Panic
deriving DecidableEq

/-- What a goroutine takes from its environment in one step. -/
inductive Ev where
  | tau
  | states (r : Option (List State))
  | events (ok : Bool)
  | done
  | timer
  | record (state : State)
  | closed
deriving DecidableEq

/-- The moves of an execution: a step of `listen`, a step of the i-th goroutine started by
`go m.syncStates(c)`, a step of `run`, a call of `Close`, a step of the running `Close`. -/
inductive Act where
  | listen (ev : Ev)
  | sync (i : Nat) (ev : Ev)
  | run
  | callClose
  | close
deriving DecidableEq

/-- The module as `New` leaves it: `stateCh` of capacity 100, `done` open, `wg.Add(1)` for
`listen`, which is about to run its first `syncStates`; `run` is ranging over the queue. -/
def New : Sys where
  done := ⟨[], 0, false⟩
  stateCh := ⟨[], 100, false⟩
  wg := 1
  listener := .syncStates .callStates
  asyncs := []
  closer := .idle
  running := true
  applied := []
  calls := []
  panicked := none

/-- The statement `m.stateCh <- state`, by whichever goroutine executes it. -/
def sendState (s : Sys) (state : State) : Option Sys :=
  match s.stateCh.send state with
  | .done ch => some { s with stateCh := ch }
  | .blocked => none
  | .panics p => some { s with panicked := some p }

/-- One step of `Module.syncStates`: `c.States` returns (`none` is an error, which is logged
before returning), or the `range` loop sends its next record, or the loop is over. -/
def syncStatesStep (s : Sys) : SyncPc → Ev → Option (Sys × SyncPc)
  | .callStates, .states r =>
    let s1 := { s with calls := s.calls ++ [.States] }
    match r with
    | none => some (s1, .returned)
    | some states => some (s1, .range states)
  | .range [], .tau => some (s, .returned)
  | .range (state :: rest), .tau => (sendState s state).map (fun s1 => (s1, .range rest))
  | _, _ => none

/-- The return of `listen`: the deferred `m.wg.Done()`. -/
def listenReturn (s : Sys) : Sys := { s with wg := s.wg - 1, listener := .returned }

/-- One step of `Module.readStates`; `none` as new position means that it has returned. -/
def readStatesStep (s : Sys) : ReadPc → Ev → Option (Sys × Option ReadPc)
  | .select, .done => if s.done.closed then some (s, none) else none
  | .select, .record state => some (s, some (.send state))
  | .select, .closed => some (s, none)
  | .send state, .tau => (sendState s state).map (fun s1 => (s1, some .select))
  | _, _ => none

/-- One step of `Module.listen`. -/
def listenStep (s : Sys) (ev : Ev) : Option Sys :=
  match s.listener with
  | .syncStates .returned =>
    match ev with
    | .tau => some { s with listener := .checkDone }
    | _ => none
  | .syncStates pc =>
    (syncStatesStep s pc ev).map (fun (s1, pc1) => { s1 with listener := .syncStates pc1 })
  | .checkDone =>
    match ev with
    | .tau => if s.done.closed then some (listenReturn s) else some { s with listener := .events }
    | _ => none
  | .events =>
    match ev with
    | .events ok =>
      some { s with calls := s.calls ++ [.Events],
                    listener := if ok then .readStates .select else .goSyncStates }
    | _ => none
  | .goSyncStates =>
    match ev with
    | .tau => some { s with asyncs := s.asyncs ++ [.callStates], listener := .retryWait }
    | _ => none
  | .retryWait =>
    match ev with
    | .done => if s.done.closed then some (listenReturn s) else none
    | .timer => some { s with listener := .checkDone }
    | _ => none
  | .readStates pc =>
    (readStatesStep s pc ev).map (fun (s1, next) =>
      match next with
      | some pc1 => { s1 with listener := .readStates pc1 }
      | none => { s1 with listener := .reconnectWait })
  | .reconnectWait =>
    match ev with
    | .done => if s.done.closed then some (listenReturn s) else none
    | .timer => some { s with listener := .checkDone }
    | _ => none
  | .returned => none

/-- One step of the i-th goroutine started by `go m.syncStates(c)`. -/
def asyncStep (s : Sys) (i : Nat) (ev : Ev) : Option Sys :=
  match s.asyncs[i]? with
  | none => none
  | some pc =>
    (syncStatesStep s pc ev).map (fun (s1, pc1) => { s1 with asyncs := s1.asyncs.set i pc1 })

/-- One step of `Module.run`: the `range` over `m.stateCh` hands the next record to
`updateState`, or ends when the queue is closed and drained. -/
def runStep (s : Sys) : Option Sys :=
  if s.running then
    match s.stateCh.recv with
    | .done (some state, ch) => some { s with stateCh := ch, applied := s.applied ++ [state] }
    | .done (none, ch) => some { s with stateCh := ch, running := false }
    | _ => none
  else none

/-- One statement of `Module.Close`. -/
def closeStep (s : Sys) : Option Sys :=
  match s.closer with
  | .closeDone =>
    match s.done.close with
    | .done ch => some { s with done := ch, closer := .wgWait }
    | .panics p => some { s with panicked := some p }
    | .blocked => none
  | .wgWait => if s.wg = 0 then some { s with closer := .closeStateCh } else none
  | .closeStateCh =>
    match s.stateCh.close with
    | .done ch => some { s with stateCh := ch, closer := .returned }
    | .panics p => some { s with panicked := some p }
    | .blocked => none
  | _ => none

/-- One move of the engine; `none` when the move is not enabled. A panic ends the process. -/
def step (s : Sys) (a : Act) : Option Sys :=
  if s.panicked.isSome then none
  else
    match a with
    | .listen ev => listenStep s ev
    | .sync i ev => asyncStep s i ev
    | .run => runStep s
    | .callClose =>
      if s.closer = .idle ∨ s.closer = .returned then some { s with closer := .closeDone }
      else none
    | .close => closeStep s

/-- Run a sequence of moves. -/
def exec (s : Sys) : List Act → Option Sys
  | [] => some s
  | a :: rest => (step s a).bind (fun s1 => exec s1 rest)

/-- The states of the engine that some execution from `New` reaches. -/
def Reachable (s : Sys) : Prop := ∃ acts, exec New acts = some s

/-- A record of the kitchen light being on. -/
def kitchenOn : State := ⟨"light.kitchen", some true⟩

/-- The stream ends after two records: a snapshot of no rows, a stream that is established,
two records that are queued, the closure of the stream channel, the fixed delay, and the
next connection attempt. -/
def reconnectRun : List Act :=
  [.listen (.states (some [])), .listen .tau, .listen .tau, .listen .tau, .listen (.events true),
   .listen (.record kitchenOn), .listen .tau, .listen (.record kitchenOn), .listen .tau,
   .listen .closed, .listen .timer, .listen .tau, .listen (.events true)]

/-- Close, and then Close again: the snapshot fails, Close raises the stop signal, `listen`
sees it at its check and returns, Close closes the queue and returns; the second call
executes `close(m.done)`. -/
def closeTwiceRun : List Act :=
  [.listen (.states none), .listen .tau, .callClose, .close, .listen .tau, .close, .close,
   .callClose, .close]

/-- A snapshot that outlives Close: the first snapshot fails, the stream is not established,
so `listen` starts `go m.syncStates(c)` and waits; Close raises the stop signal, `listen`
returns, `wg.Wait` returns and Close closes the queue; then `c.States` of the started
goroutine returns one row, which it sends. -/
def lateSnapshotRun : List Act :=
  [.listen (.states none), .listen .tau, .listen .tau, .listen (.events false), .listen .tau,
   .callClose, .close, .listen .done, .close, .close,
   .sync 0 (.states (some [kitchenOn])), .sync 0 .tau]

/-- A full queue at the stop signal: the snapshot has 100 rows, which fill the queue while
`run` is busy; the stream is established and delivers a record, which `readStates` takes;
then Close raises the stop signal. -/
def fullQueueRun : List Act :=
  [.listen (.states (some (List.replicate 100 kitchenOn)))] ++
  List.replicate 100 (.listen .tau) ++
  [.listen .tau, .listen .tau, .listen .tau, .listen (.events true),
   .listen (.record kitchenOn), .callClose, .close]

/-- The stop signal while `readStates` waits at its `select`: an empty snapshot, a stream
that is established, then Close raises the stop signal. -/
def stopAtSelectRun : List Act :=
  [.listen (.states (some [])), .listen .tau, .listen .tau, .listen .tau, .listen (.events true),
   .callClose, .close]

/-- The fields that a step of a producer or of the consumer leaves alone. -/
def SameControl (s s1 : Sys) : Prop :=
  s1.done = s.done ∧ s1.wg = s.wg ∧ s1.closer = s.closer ∧
    s1.stateCh.closed = s.stateCh.closed ∧ s1.stateCh.cap = s.stateCh.cap

/-- The invariant of the engine: the wait group counts `listen`; Close has raised the stop
signal once it is past `close(m.done)`; it is past `wg.Wait` only after `listen` has returned;
it has closed the queue when it returns; the queue is closed only after `listen` returned. -/
structure Inv (s : Sys) : Prop where
  counted : s.wg = if s.listener = .returned then 0 else 1
  raised : s.closer = .wgWait ∨ s.closer = .closeStateCh ∨ s.closer = .returned →
    s.done.closed = true
  joined : s.closer = .closeStateCh ∨ s.closer = .returned → s.listener = .returned
  released : s.closer = .returned → s.stateCh.closed = true
  queue : s.stateCh.closed = true → s.listener = .returned

/-- The engine after `Close` has returned in `closeTwiceRun`: both channels closed, `listen`
returned, nothing queued. -/
def stoppedState : Sys where
  done := ⟨[], 0, true⟩
  stateCh := ⟨[], 100, true⟩
  wg := 0
  listener := .returned
  asyncs := []
  closer := .returned
  running := true
  applied := []
  calls := [.States]
  panicked := none

/-- The engine at the end of `stopAtSelectRun`: the stop signal is raised, `readStates` is at its
`select`, `Close` waits for `listen`. -/
def stopAtSelectState : Sys where
  done := ⟨[], 0, true⟩
  stateCh := ⟨[], 100, false⟩
  wg := 1
  listener := .readStates .select
  asyncs := []
  closer := .wgWait
  running := true
  applied := []
  calls := [.States, .Events]
  panicked := none

/-! ## The loops that apply records -/

/-- Concatenate what two successive applications leave behind. -/
def Applied.andThen (a : Applied) (next : Dom → Applied) : Applied :=
  let b := next a.ui
  ⟨b.ui, a.calls ++ b.calls, a.logged ++ b.logged⟩

/-- The method `Module.run` of `hass.go` over the records it receives from the queue. -/
def Hass.run (Mapping : String → Option String) : List State → Dom → Applied
  | [], ui => ⟨ui, [], []⟩
  | state :: rest, ui => (Hass.updateState Mapping state ui).andThen (Hass.run Mapping rest)

/-- The loop of `Module.syncStates` of `main.go` over the rows of a snapshot. -/
def Main.applyStates (Mapping : String → Option String) : List eventState → Dom → Applied
  | [], ui => ⟨ui, [], []⟩
  | state :: rest, ui =>
    (Main.updateState Mapping state.EntityID state.State ui).andThen
      (Main.applyStates Mapping rest)

/-- A surface with one element, handle 0, reachable as `light.kitchen` and through the
selector of that id, with classes `lamp off on`. -/
def sampleDom : Dom where
  find := fun key =>
    if key = "light.kitchen" then some 0 else if key = "#light\\.kitchen" then some 0 else none
  classList := fun e => if e = 0 then ["lamp", "off", "on"] else []

/-- A surface that answers bare element ids only, as `getElementById` of `hass.go` asks: one
element, handle 0, reachable as `light.kitchen`, with classes `lamp off on`. -/
def bareDom : Dom where
  find := fun key => if key = "light.kitchen" then some 0 else none
  classList := fun e => if e = 0 then ["lamp", "off", "on"] else []

/-- An alias table with no entry. -/
def noMapping : String → Option String := fun _ => none

/-! ## Theorems -/

/-- C1: `stateToBool` is a total function that returns present-true exactly on "on" and
"open", present-false exactly on "off" and "closed", and nil on every other string, among them
the empty string, "unavailable" and "unknown". -/
theorem stateToBool_spec (s : String) :
    (stateToBool s = some true ↔ (s = "on" ∨ s = "open")) ∧
    (stateToBool s = some false ↔ (s = "off" ∨ s = "closed")) ∧
    (stateToBool s = none ↔ ¬ (s = "on" ∨ s = "open" ∨ s = "off" ∨ s = "closed")) ∧
    stateToBool "" = none ∧ stateToBool "unavailable" = none ∧ stateToBool "unknown" = none := by
  refine ⟨?_, ?_, ?_, by decide, by decide, by decide⟩
  · unfold stateToBool
    split_ifs with h1 h2 <;> simp [h1]
  · unfold stateToBool
    split_ifs with h1 h2
    · rcases h1 with h | h <;> subst h <;> simp
    · simp [h2]
    · simp [h2]
  · unfold stateToBool
    split_ifs with h1 h2
    · rcases h1 with h | h <;> subst h <;> simp
    · rcases h2 with h | h <;> subst h <;> simp
    · simp; tauto

theorem bytes_data : bytes "data: " = [100, 97, 116, 97, 58, 32] := by decide

theorem bytes_ping : bytes "ping" = [112, 105, 110, 103] := by decide

theorem bytes_ping_lf : bytes "ping\n" = [112, 105, 110, 103, 10] := by decide

/-- The guard of the loop on the line `content ++ "\n"` is the negation of "the content begins
with `data: `": the delimiter is not part of the literal. -/
theorem guard_iff (content : List Nat) :
    ((content ++ [LF]).length < 6 ∨ (content ++ [LF]).take 6 ≠ bytes "data: ") ↔
      ¬ (bytes "data: " <+: content) := by
  rw [bytes_data]
  constructor
  · rintro h ⟨t, rfl⟩
    rcases h with h | h
    · simp at h
      omega
    · exact h (by simp)
  · intro h
    by_contra hc
    push_neg at hc
    obtain ⟨hlen, htake⟩ := hc
    apply h
    rcases content with _ | ⟨a, _ | ⟨b, _ | ⟨c, _ | ⟨d, _ | ⟨e, _ | ⟨f, t⟩⟩⟩⟩⟩⟩
    all_goals simp [LF] at hlen htake
    obtain ⟨rfl, rfl, rfl, rfl, rfl, rfl⟩ := htake
    exact ⟨t, rfl⟩

/-- After the six bytes of the literal, the line is the payload followed by the delimiter. -/
theorem drop_line (content : List Nat) (h : bytes "data: " <+: content) :
    (content ++ [LF]).drop 6 = payload content ++ [LF] := by
  obtain ⟨t, rfl⟩ := h
  rw [bytes_data]
  simp [payload]

theorem ping_iff (p : List Nat) : p ++ [LF] = bytes "ping\n" ↔ p = bytes "ping" := by
  rw [bytes_ping_lf, bytes_ping]
  constructor
  · intro h
    have : p ++ [LF] = [112, 105, 110, 103] ++ [10] := by simpa using h
    exact List.append_inj_left' this rfl
  · rintro rfl
    rfl

/-- One turn of the loop of `Client.Events`, read through the classification of the
specification. -/
theorem Events_cons (unmarshal : List Nat → Option eventChanged)
    (hws : ∀ p, unmarshal (p ++ [LF]) = unmarshal p) (r : Read) (rest : List Read) :
    Events unmarshal (r :: rest) =
      match classify unmarshal r with
      | .stop => ([], true)
      | .ignored => Events unmarshal rest
      | .emit s => (s :: (Events unmarshal rest).1, (Events unmarshal rest).2) := by
  cases r with
  | err rest0 => simp [Events, ReadBytes, classify]
  | line content =>
    by_cases hp : bytes "data: " <+: content
    · have hg : ¬ ((content ++ [LF]).length < 6 ∨ (content ++ [LF]).take 6 ≠ bytes "data: ") := by
        rw [guard_iff]
        exact not_not.mpr hp
      by_cases hping : payload content = bytes "ping"
      · have : (content ++ [LF]).drop 6 = bytes "ping\n" := by
          rw [drop_line content hp, ping_iff]
          exact hping
        simp only [Events, ReadBytes, classify, hp, hping, hg, this]
        simp
      · have hn : ¬ ((content ++ [LF]).drop 6 = bytes "ping\n") := by
          rw [drop_line content hp, ping_iff]
          exact hping
        have hd : unmarshal ((content ++ [LF]).drop 6) = unmarshal (payload content) := by
          rw [drop_line content hp, hws]
        simp only [Events, ReadBytes, classify, hp, hping, hg, hn, hd]
        cases hu : unmarshal (payload content) with
        | none => simp
        | some event =>
          by_cases he : event.EventType = "state_changed"
          · simp [he]
          · simp [he]
    · have hg : (content ++ [LF]).length < 6 ∨ (content ++ [LF]).take 6 ≠ bytes "data: " :=
        (guard_iff content).mpr hp
      simp only [Events, ReadBytes, classify, hp, hg]
      simp

/-- C2: for every sequence of reads of an established stream, the records the goroutine of
`Client.Events` sends on its channel, and whether it closes the channel, are those of the
reference of the specification: lines that do not begin with "data: " and "ping" payloads are
skipped, the first read error or undecodable payload ends the sequence and closes the channel,
events of another type are skipped, every other event gives the record of its new state
normalised by `stateToBool`, in line order; nothing after a stopping read has any effect. -/
theorem Events_refines_reference (unmarshal : List Nat → Option eventChanged)
    (hws : ∀ p, unmarshal (p ++ [LF]) = unmarshal p) (reads : List Read) :
    Events unmarshal reads = eventsReference unmarshal reads ∧
    (∀ pre bad post, reads = pre ++ bad :: post → classify unmarshal bad = .stop →
      Events unmarshal reads = Events unmarshal (pre ++ [bad]) ∧
      (Events unmarshal reads).2 = true) := by
  constructor
  · induction reads with
    | nil => simp [Events, eventsReference]
    | cons r rest ih =>
      rw [Events_cons unmarshal hws, ih]
      cases hc : classify unmarshal r with
      | stop => simp [eventsReference, hc, List.takeWhile]
      | ignored => simp [eventsReference, hc, List.takeWhile, Frame.record]
      | emit s => simp [eventsReference, hc, List.takeWhile, Frame.record]
  · intro pre bad post hreads hbad
    subst hreads
    induction pre with
    | nil =>
      simp only [List.nil_append]
      rw [Events_cons unmarshal hws, Events_cons unmarshal hws, hbad]
      simp
    | cons r pre ih =>
      simp only [List.cons_append]
      rw [Events_cons unmarshal hws, Events_cons unmarshal hws r]
      cases hc : classify unmarshal r with
      | stop => simp
      | ignored => exact ih
      | emit s =>
        have h2 := ih.2
        rw [ih.1] at h2
        simp [ih.1, h2]

theorem sampleUnmarshal_lf (p : List Nat) : sampleUnmarshal (p ++ [LF]) = sampleUnmarshal p := by
  have : trimLF (p ++ [LF]) = trimLF p := by simp [trimLF, List.dropWhile]
  simp [sampleUnmarshal, this]

/-- The loop and the reference on the sample stream: one record, then the channel is closed
at the malformed payload; the later state change is never seen. -/
theorem Events_refines_reference_witness :
    (∀ p, sampleUnmarshal (p ++ [LF]) = sampleUnmarshal p) ∧
    Events sampleUnmarshal sampleReads = ([⟨"light.kitchen", some true⟩], true) ∧
    Events sampleUnmarshal sampleReads = eventsReference sampleUnmarshal sampleReads :=
  ⟨sampleUnmarshal_lf, by decide,
    (Events_refines_reference sampleUnmarshal sampleUnmarshal_lf sampleReads).1⟩

theorem foldl_append_map {α β : Type} (f : α → β) (l : List α) (init : List β) :
    l.foldl (fun acc x => acc ++ [f x]) init = init ++ l.map f := by
  induction l generalizing init with
  | nil => simp
  | cons a l ih => simp [List.foldl, ih]

/-- C8: `Client.States` returns an error together with no records whenever the request cannot
be built or sent, the status is not 200, or the body does not decode; otherwise, for the decoded
rows, it returns no error and exactly one record per row, in payload order, the i-th being the
entity id of the i-th row with its state normalised by `stateToBool`. -/
theorem States_spec (t : Transport) :
    match snapshotRows t with
    | none => (States t).1 = [] ∧ (States t).2 ≠ none
    | some rows =>
      (States t).2 = none ∧
      (States t).1 = rows.map (fun r => ⟨r.EntityID, stateToBool r.State⟩) ∧
      (States t).1.length = rows.length ∧
      ∀ (i : Nat) (r : eventState), rows[i]? = some r →
        (States t).1[i]? = some (State.mk r.EntityID (stateToBool r.State)) := by
  cases h1 : t.Parse "api/states" with
  | error e => simp [snapshotRows, States, h1]
  | ok u =>
    cases h2 : t.NewRequest "GET" u with
    | error e => simp [snapshotRows, States, h1, h2]
    | ok req =>
      cases h3 : t.Do req with
      | error e => simp [snapshotRows, States, h1, h2, h3]
      | ok resp =>
        by_cases hs : resp.StatusCode = 200
        · cases hd : t.Decode resp.Body with
          | error e => simp [snapshotRows, States, h1, h2, h3, hs, hd]
          | ok rows =>
            simp only [snapshotRows, States, h1, h2, h3, hs, hd, foldl_append_map]
            simp
            intro i r hr
            simp [hr]
        · simp [snapshotRows, States, h1, h2, h3, hs]

theorem setClassList_classList (ui : Dom) (el : Nat) (cl : List String) :
    (ui.setClassList el cl).classList el = cl := by
  simp [Dom.setClassList]

theorem setClassList_find (ui : Dom) (el : Nat) (cl : List String) :
    (ui.setClassList el cl).find = ui.find := rfl

theorem setClassList_twice (ui : Dom) (el : Nat) (a b : List String) :
    (ui.setClassList el a).setClassList el b = ui.setClassList el b := by
  unfold Dom.setClassList
  congr 1
  funext e
  by_cases h : e = el <;> simp [h]

theorem setClassList_other (ui : Dom) (el e : Nat) (cl : List String) (h : e ≠ el) :
    (ui.setClassList el cl).classList e = ui.classList e := by
  simp [Dom.setClassList, h]

/-- The class list after "remove the three classes, then add `c`". -/
theorem remove_then_add (cl : List String) (c : String)
    (hc : c ∈ ["on", "off", "unavailable"]) :
    classListAdd (classListRemove cl ["on", "off", "unavailable"]) c =
      classListRemove cl ["on", "off", "unavailable"] ++ [c] := by
  unfold classListAdd
  rw [if_neg]
  intro hmem
  simp only [classListRemove, List.mem_filter, decide_eq_true_eq] at hmem
  exact hmem.2 hc

/-- Removing the three classes one call at a time is removing them at once. -/
theorem remove_one_by_one (cl : List String) :
    classListRemove (classListRemove (classListRemove cl ["on"]) ["off"]) ["unavailable"] =
      classListRemove cl ["on", "off", "unavailable"] := by
  simp only [classListRemove, List.filter_filter]
  congr 1
  funext c
  simp only [List.mem_cons, List.mem_singleton, List.not_mem_nil, or_false, Bool.decide_eq_true,
    Bool.and_eq_decide]
  rw [decide_eq_decide]
  tauto

theorem remove_add_again (cl : List String) (c : String)
    (hc : c ∈ ["on", "off", "unavailable"]) :
    classListRemove (classListRemove cl ["on", "off", "unavailable"] ++ [c])
        ["on", "off", "unavailable"] =
      classListRemove cl ["on", "off", "unavailable"] := by
  simp only [classListRemove, List.filter_append, List.filter_filter]
  have : List.filter (fun c => decide (c ∉ ["on", "off", "unavailable"])) [c] = [] := by
    simp [List.filter, hc]
  rw [this]
  simp

theorem count_after (cl : List String) (c d : String)
    (hd : d ∈ ["on", "off", "unavailable"]) :
    (classListRemove cl ["on", "off", "unavailable"] ++ [c]).count d = if d = c then 1 else 0 := by
  have h0 : (classListRemove cl ["on", "off", "unavailable"]).count d = 0 := by
    rw [List.count_eq_zero]
    intro hmem
    simp only [classListRemove, List.mem_filter, decide_eq_true_eq] at hmem
    exact hmem.2 hd
  rw [List.count_append, h0]
  by_cases h : d = c
  · subst h
    simp
  · have : ¬ (c = d) := fun e => h e.symm
    simp [h, List.count_cons, this]

theorem mem_after (cl : List String) (c d : String)
    (hc : c ∈ ["on", "off", "unavailable"]) (hd : d ∉ ["on", "off", "unavailable"]) :
    d ∈ classListRemove cl ["on", "off", "unavailable"] ++ [c] ↔ d ∈ cl := by
  have hne : d ≠ c := fun e => hd (e ▸ hc)
  simp [classListRemove, hd, hne]
  intro h
  simp at hd
  exact hd

theorem stateClass_mem (v : Option Bool) : stateClass v ∈ ["on", "off", "unavailable"] := by
  rcases v with _ | b
  · simp [stateClass]
  · cases b <;> simp [stateClass]

theorem actualState_mem (state : String) :
    Main.actualState state ∈ ["on", "off", "unavailable"] := by
  unfold Main.actualState
  split_ifs <;> simp

/-- The effect of `updateState` of `hass.go` on a present element. -/
theorem hass_updateState_present (Mapping : String → Option String) (s : State) (ui : Dom)
    (el : Nat) (h : ui.find (resolve Mapping s.ID) = some el) :
    Hass.updateState Mapping s ui =
      ⟨ui.setClassList el
          (classListRemove (ui.classList el) ["on", "off", "unavailable"] ++ [stateClass s.State]),
        [.lookup (resolve Mapping s.ID),
         .remove (resolve Mapping s.ID) ["on", "off", "unavailable"],
         .add (resolve Mapping s.ID) (stateClass s.State)], []⟩ := by
  simp only [Hass.updateState, Eval, h, setClassList_find, setClassList_classList,
    setClassList_twice, remove_then_add _ _ (stateClass_mem s.State)]
  simp

/-- The effect of `updateState` of `main.go` on a present element. -/
theorem main_updateState_present (Mapping : String → Option String) (id state : String)
    (ui : Dom) (elem : Nat) (h : ui.find (Main.selector Mapping id) = some elem) :
    Main.updateState Mapping id state ui =
      ⟨ui.setClassList elem
          (classListRemove (ui.classList elem) ["on", "off", "unavailable"] ++
            [Main.actualState state]),
        [.lookup (Main.selector Mapping id), .remove (Main.selector Mapping id) ["on"],
         .remove (Main.selector Mapping id) ["off"],
         .remove (Main.selector Mapping id) ["unavailable"],
         .add (Main.selector Mapping id) (Main.actualState state)], []⟩ := by
  simp only [Main.updateState, h, setClassList_find, setClassList_classList,
    setClassList_twice, remove_one_by_one, remove_then_add _ _ (actualState_mem state)]

/-- The class `main.go` picks, as a table over the textual state. -/
theorem actualState_table (state : String) :
    Main.actualState state =
      (if state = "unavailable" ∨ state = "unknown" then "unavailable"
       else if state = "on" ∨ state = "open" then "on" else "off") := by
  unfold Main.actualState
  by_cases h : state = "unavailable" ∨ state = "unknown"
  · rcases h with h | h <;> subst h <;> decide
  · have h1 : state ≠ "unavailable" ∧ state ≠ "unknown" := by
      push_neg at h
      exact h
    simp [h, h1]

/-- C3 fails as stated for `main.go`: the textual state "idle" normalises to Unknown, yet
`updateState` of `main.go` leaves the present element with the class off and without the
class unavailable; so "unavailable when the value is Unknown" does not hold of every record
there. -/
theorem main_updateState_unknown_gets_off :
    sampleDom.find (Main.selector noMapping "light.kitchen") = some 0 ∧
    stateToBool "idle" = none ∧
    (Main.updateState noMapping "light.kitchen" "idle" sampleDom).ui.classList 0 =
      ["lamp", "off"] ∧
    "unavailable" ∉ (Main.updateState noMapping "light.kitchen" "idle" sampleDom).ui.classList 0 ∧
    ¬ (∀ (Mapping : String → Option String) (id state : String) (ui : Dom) (elem : Nat),
        ui.find (Main.selector Mapping id) = some elem → stateToBool state = none →
        "unavailable" ∈ (Main.updateState Mapping id state ui).ui.classList elem) := by
  refine ⟨by decide, by decide, by decide, by decide, ?_⟩
  intro h
  exact absurd (h noMapping "light.kitchen" "idle" sampleDom 0 (by decide) (by decide))
    (by decide)

/-- C3 as amended: for every record, every alias table and every surface on which the element
of the record is present, `updateState` leaves the element with exactly one of the classes
on / off / unavailable, each other class of the element as it was and every other element
untouched, and applying the same record a second time leaves the surface as the first
application left it. In `hass.go` the class is on for On, off for Off and unavailable for
Unknown, and no error is logged. In `main.go`, whose record carries the textual state, the
class is on when the text normalises to On, off when it normalises to Off, and for a text that
normalises to Unknown it is unavailable for "unavailable" and "unknown" and off for every
other text. The two halves are independent: each has its own surface and its own premise. -/
theorem updateState_one_class (Mapping : String → Option String) (s : State)
    (id state : String) (uiH uiM : Dom) (el elem : Nat)
    (hh : uiH.find (resolve Mapping s.ID) = some el)
    (hm : uiM.find (Main.selector Mapping id) = some elem) :
    ((∀ c ∈ ["on", "off", "unavailable"],
        ((Hass.updateState Mapping s uiH).ui.classList el).count c =
          if c = (match s.State with
                  | some true => "on"
                  | some false => "off"
                  | none => "unavailable") then 1 else 0) ∧
      (∀ c, c ∉ ["on", "off", "unavailable"] →
        (c ∈ (Hass.updateState Mapping s uiH).ui.classList el ↔ c ∈ uiH.classList el)) ∧
      (∀ e, e ≠ el → (Hass.updateState Mapping s uiH).ui.classList e = uiH.classList e) ∧
      (Hass.updateState Mapping s uiH).ui.find = uiH.find ∧
      (Hass.updateState Mapping s uiH).logged = [] ∧
      (Hass.updateState Mapping s (Hass.updateState Mapping s uiH).ui).ui =
        (Hass.updateState Mapping s uiH).ui) ∧
    ((∀ c ∈ ["on", "off", "unavailable"],
        ((Main.updateState Mapping id state uiM).ui.classList elem).count c =
          if c = (if state = "unavailable" ∨ state = "unknown" then "unavailable"
                  else if state = "on" ∨ state = "open" then "on" else "off") then 1 else 0) ∧
      (stateToBool state = some true →
        ((Main.updateState Mapping id state uiM).ui.classList elem).count "on" = 1) ∧
      (stateToBool state = some false →
        ((Main.updateState Mapping id state uiM).ui.classList elem).count "off" = 1) ∧
      (stateToBool state = none →
        ((Main.updateState Mapping id state uiM).ui.classList elem).count
          (if state = "unavailable" ∨ state = "unknown" then "unavailable" else "off") = 1) ∧
      (∀ c, c ∉ ["on", "off", "unavailable"] →
        (c ∈ (Main.updateState Mapping id state uiM).ui.classList elem ↔
          c ∈ uiM.classList elem)) ∧
      (∀ e, e ≠ elem →
        (Main.updateState Mapping id state uiM).ui.classList e = uiM.classList e) ∧
      (Main.updateState Mapping id state uiM).ui.find = uiM.find ∧
      (Main.updateState Mapping id state (Main.updateState Mapping id state uiM).ui).ui =
        (Main.updateState Mapping id state uiM).ui) := by
  have hh2 : (Hass.updateState Mapping s uiH).ui.find (resolve Mapping s.ID) = some el := by
    rw [hass_updateState_present Mapping s uiH el hh]
    exact hh
  have hm2 : (Main.updateState Mapping id state uiM).ui.find (Main.selector Mapping id) =
      some elem := by
    rw [main_updateState_present Mapping id state uiM elem hm]
    exact hm
  have hclass : stateClass s.State =
      (match s.State with
       | some true => "on"
       | some false => "off"
       | none => "unavailable") := by
    rcases s with ⟨sid, _ | b⟩
    · rfl
    · cases b <;> rfl
  have hcount : ∀ c ∈ ["on", "off", "unavailable"],
      ((Main.updateState Mapping id state uiM).ui.classList elem).count c =
        if c = (if state = "unavailable" ∨ state = "unknown" then "unavailable"
                else if state = "on" ∨ state = "open" then "on" else "off") then 1 else 0 := by
    intro c hc
    rw [main_updateState_present Mapping id state uiM elem hm, ← actualState_table state]
    simp only [setClassList_classList]
    exact count_after _ _ _ hc
  refine ⟨⟨?_, ?_, ?_, ?_, ?_, ?_⟩, ⟨hcount, ?_, ?_, ?_, ?_, ?_, ?_, ?_⟩⟩
  · intro c hc
    rw [hass_updateState_present Mapping s uiH el hh, ← hclass]
    simp only [setClassList_classList]
    exact count_after _ _ _ hc
  · intro c hc
    rw [hass_updateState_present Mapping s uiH el hh]
    simp only [setClassList_classList]
    exact mem_after _ _ _ (stateClass_mem s.State) hc
  · intro e he
    rw [hass_updateState_present Mapping s uiH el hh]
    exact setClassList_other _ _ _ _ he
  · rw [hass_updateState_present Mapping s uiH el hh]
    rfl
  · rw [hass_updateState_present Mapping s uiH el hh]
  · rw [hass_updateState_present Mapping s _ el hh2, hass_updateState_present Mapping s uiH el hh]
    simp only [setClassList_classList, setClassList_twice,
      remove_add_again _ _ (stateClass_mem s.State)]
  · intro hs
    have hon : state = "on" ∨ state = "open" := by
      by_contra h1
      simp [stateToBool, h1] at hs
    have hnu : ¬ (state = "unavailable" ∨ state = "unknown") := by
      rcases hon with h | h <;> subst h <;> decide
    have := hcount "on" (by simp)
    rw [if_neg hnu, if_pos hon] at this
    simpa using this
  · intro hs
    have hoff : state = "off" ∨ state = "closed" := by
      by_contra h2
      simp [stateToBool, h2] at hs
    have hnu : ¬ (state = "unavailable" ∨ state = "unknown") := by
      rcases hoff with h | h <;> subst h <;> decide
    have hno : ¬ (state = "on" ∨ state = "open") := by
      rcases hoff with h | h <;> subst h <;> decide
    have := hcount "off" (by simp)
    rw [if_neg hnu, if_neg hno] at this
    simpa using this
  · intro hs
    have hno : ¬ (state = "on" ∨ state = "open") := by
      intro h
      unfold stateToBool at hs
      rw [if_pos h] at hs
      cases hs
    by_cases hu : state = "unavailable" ∨ state = "unknown"
    · have := hcount "unavailable" (by simp)
      rw [if_pos hu] at this ⊢
      simpa using this
    · have := hcount "off" (by simp)
      rw [if_neg hu, if_neg hno] at this
      rw [if_neg hu]
      simpa using this
  · intro c hc
    rw [main_updateState_present Mapping id state uiM elem hm]
    simp only [setClassList_classList]
    exact mem_after _ _ _ (actualState_mem state) hc
  · intro e he
    rw [main_updateState_present Mapping id state uiM elem hm]
    exact setClassList_other _ _ _ _ he
  · rw [main_updateState_present Mapping id state uiM elem hm]
    rfl
  · rw [main_updateState_present Mapping id state _ elem hm2,
      main_updateState_present Mapping id state uiM elem hm]
    simp only [setClassList_classList, setClassList_twice,
      remove_add_again _ _ (actualState_mem state)]

/-- The premises of C3 hold on two separate surfaces, one that answers bare ids only for
`hass.go` and one that answers the selector for `main.go`; on both the element, which carried
on and off together, is left with on alone next to its other class, and the counts are those
of the theorem. -/
theorem updateState_one_class_witness :
    bareDom.find (resolve noMapping "light.kitchen") = some 0 ∧
    sampleDom.find (Main.selector noMapping "light.kitchen") = some 0 ∧
    bareDom.find (Main.selector noMapping "light.kitchen") = none ∧
    (Hass.updateState noMapping ⟨"light.kitchen", some true⟩ bareDom).ui.classList 0 =
      ["lamp", "on"] ∧
    (Main.updateState noMapping "light.kitchen" "on" sampleDom).ui.classList 0 =
      ["lamp", "on"] ∧
    (∀ c ∈ ["on", "off", "unavailable"],
      ((Hass.updateState noMapping ⟨"light.kitchen", some true⟩ bareDom).ui.classList 0).count c =
        if c = "on" then 1 else 0) ∧
    (∀ c ∈ ["on", "off", "unavailable"],
      ((Main.updateState noMapping "light.kitchen" "on" sampleDom).ui.classList 0).count c =
        if c = (if "on" = "unavailable" ∨ "on" = "unknown" then "unavailable"
                else if "on" = "on" ∨ "on" = "open" then "on" else "off") then 1 else 0) :=
  ⟨by decide, by decide, by decide, by decide, by decide,
    (updateState_one_class noMapping ⟨"light.kitchen", some true⟩ "light.kitchen" "on"
      bareDom sampleDom 0 0 (by decide) (by decide)).1.1,
    (updateState_one_class noMapping ⟨"light.kitchen", some true⟩ "light.kitchen" "on"
      bareDom sampleDom 0 0 (by decide) (by decide)).2.1⟩

/-- C9: for every record whose resolved element identifier has no element on the surface,
`updateState` (of `hass.go` and of `main.go`) issues the lookup and no other renderer call,
logs no error and leaves the surface as it was; the loop that applies records goes on with the
records that follow, from the same surface. -/
theorem updateState_absent (Mapping : String → Option String) (s : State) (id state : String)
    (ui : Dom) (rest : List State) (rows : List eventState)
    (hh : ui.find (resolve Mapping s.ID) = none)
    (hm : ui.find (Main.selector Mapping id) = none) :
    Hass.updateState Mapping s ui = ⟨ui, [.lookup (resolve Mapping s.ID)], []⟩ ∧
    Main.updateState Mapping id state ui = ⟨ui, [.lookup (Main.selector Mapping id)], []⟩ ∧
    Hass.run Mapping (s :: rest) ui =
      ⟨(Hass.run Mapping rest ui).ui,
        .lookup (resolve Mapping s.ID) :: (Hass.run Mapping rest ui).calls,
        (Hass.run Mapping rest ui).logged⟩ ∧
    Main.applyStates Mapping (⟨id, state⟩ :: rows) ui =
      ⟨(Main.applyStates Mapping rows ui).ui,
        .lookup (Main.selector Mapping id) :: (Main.applyStates Mapping rows ui).calls,
        (Main.applyStates Mapping rows ui).logged⟩ := by
  have h1 : Hass.updateState Mapping s ui = ⟨ui, [.lookup (resolve Mapping s.ID)], []⟩ := by
    simp [Hass.updateState, Eval, hh]
  have h2 : Main.updateState Mapping id state ui =
      ⟨ui, [.lookup (Main.selector Mapping id)], []⟩ := by
    simp [Main.updateState, hm]
  refine ⟨h1, h2, ?_, ?_⟩
  · simp [Hass.run, h1, Applied.andThen]
  · simp [Main.applyStates, h2, Applied.andThen]

/-- On the sample surface a record for an entity without an element costs one lookup, and the
record that follows is applied as usual. -/
theorem updateState_absent_witness :
    sampleDom.find (resolve noMapping "sensor.attic") = none ∧
    sampleDom.find (Main.selector noMapping "sensor.attic") = none ∧
    (Hass.updateState noMapping ⟨"sensor.attic", none⟩ sampleDom).calls =
      [.lookup "sensor.attic"] ∧
    (Hass.run noMapping [⟨"sensor.attic", none⟩, ⟨"light.kitchen", some false⟩]
      sampleDom).ui.classList 0 = ["lamp", "off"] :=
  ⟨by decide, by decide,
    congrArg Applied.calls
      (updateState_absent noMapping ⟨"sensor.attic", none⟩ "sensor.attic" "on" sampleDom [] []
        (by decide) (by decide)).1,
    by decide⟩

/-- C10 fails as stated: for the empty textual state `main.go` adds the class off, while the
tri-state of the empty string is Unknown, whose class in `hass.go` is unavailable. -/
theorem actualState_differs :
    Main.actualState "" = "off" ∧
    stateClass (stateToBool "") = "unavailable" ∧
    (Main.updateState noMapping "light.kitchen" "" sampleDom).ui.classList 0 = ["lamp", "off"] ∧
    (Hass.updateState noMapping ⟨"light.kitchen", stateToBool ""⟩ sampleDom).ui.classList 0 =
      ["lamp", "unavailable"] ∧
    ¬ (∀ s : String, Main.actualState s = stateClass (stateToBool s)) := by
  refine ⟨by decide, by decide, by decide, by decide, ?_⟩
  intro h
  exact absurd (h "") (by decide)

/-- C10 as amended: the only class `updateState` of `main.go` adds is unavailable for
"unavailable" and "unknown", on for "on" and "open", and off for every other textual state,
the empty string and unrecognised values included; it is the class `hass.go` adds for the
normalised record exactly on the six states on, open, off, closed, unavailable, unknown. -/
theorem actualState_spec (s : String) :
    Main.actualState s =
      (if s = "unavailable" ∨ s = "unknown" then "unavailable"
       else if s = "on" ∨ s = "open" then "on" else "off") ∧
    (Main.actualState s = stateClass (stateToBool s) ↔
      s ∈ ["on", "open", "off", "closed", "unavailable", "unknown"]) ∧
    (∀ (Mapping : String → Option String) (id : String) (ui : Dom) (key c : String),
      UICall.add key c ∈ (Main.updateState Mapping id s ui).calls → c = Main.actualState s) := by
  refine ⟨?_, ?_, ?_⟩
  · unfold Main.actualState
    by_cases h : s = "unavailable" ∨ s = "unknown"
    · rcases h with h | h <;> subst h <;> decide
    · have h' : s ≠ "unavailable" ∧ s ≠ "unknown" := by
        push_neg at h
        exact h
      simp [h, h']
  · by_cases h : s ∈ ["on", "open", "off", "closed", "unavailable", "unknown"]
    · simp only [h, iff_true]
      simp only [List.mem_cons, List.mem_singleton, List.not_mem_nil, or_false] at h
      rcases h with h | h | h | h | h | h <;> subst h <;> decide
    · simp only [h, iff_false]
      simp only [List.mem_cons, List.mem_singleton, List.not_mem_nil, or_false, not_or] at h
      obtain ⟨h1, h2, h3, h4, h5, h6⟩ := h
      simp [Main.actualState, stateToBool, stateClass, h1, h2, h3, h4, h5, h6]
  · intro Mapping id ui key c hmem
    unfold Main.updateState at hmem
    cases hf : ui.find (Main.selector Mapping id) with
    | none => simp [hf] at hmem
    | some elem =>
      simp [hf] at hmem
      exact hmem.2

theorem sendState_frame {s s1 : Sys} {state : State} (h : sendState s state = some s1) :
    SameControl s s1 ∧ s1.listener = s.listener ∧ s1.asyncs = s.asyncs ∧ s1.calls = s.calls := by
  unfold sendState Chan.send at h
  split at h
  · rename_i ch hch
    split_ifs at hch with h1 h2
    simp only [Attempt.done.injEq] at hch
    simp only [Option.some.injEq] at h
    subst h hch
    simp [SameControl, h1]
  · cases h
  · simp only [Option.some.injEq] at h
    subst h
    simp [SameControl]

theorem syncStatesStep_frame {s s1 : Sys} {pc pc1 : SyncPc} {ev : Ev}
    (h : syncStatesStep s pc ev = some (s1, pc1)) :
    SameControl s s1 ∧ s1.listener = s.listener ∧ s1.asyncs = s.asyncs := by
  unfold syncStatesStep at h
  split at h
  · split at h <;> simp only [Option.some.injEq, Prod.mk.injEq] at h <;> obtain ⟨rfl, rfl⟩ := h <;>
      simp [SameControl]
  · simp only [Option.some.injEq, Prod.mk.injEq] at h
    obtain ⟨rfl, rfl⟩ := h
    simp [SameControl]
  · simp only [Option.map_eq_some'] at h
    obtain ⟨s2, hs, h2⟩ := h
    simp only [Prod.mk.injEq] at h2
    obtain ⟨rfl, rfl⟩ := h2
    have := sendState_frame hs
    exact ⟨this.1, this.2.1, this.2.2.1⟩
  · cases h

theorem readStatesStep_frame {s s1 : Sys} {pc : ReadPc} {next : Option ReadPc} {ev : Ev}
    (h : readStatesStep s pc ev = some (s1, next)) :
    SameControl s s1 ∧ s1.listener = s.listener ∧ s1.asyncs = s.asyncs ∧ s1.calls = s.calls := by
  unfold readStatesStep at h
  split at h
  · split_ifs at h
    simp only [Option.some.injEq, Prod.mk.injEq] at h
    obtain ⟨rfl, rfl⟩ := h
    simp [SameControl]
  · simp only [Option.some.injEq, Prod.mk.injEq] at h
    obtain ⟨rfl, rfl⟩ := h
    simp [SameControl]
  · simp only [Option.some.injEq, Prod.mk.injEq] at h
    obtain ⟨rfl, rfl⟩ := h
    simp [SameControl]
  · simp only [Option.map_eq_some'] at h
    obtain ⟨s2, hs, h2⟩ := h
    simp only [Prod.mk.injEq] at h2
    obtain ⟨rfl, rfl⟩ := h2
    exact sendState_frame hs
  · cases h

theorem listenStep_frame {s s1 : Sys} {ev : Ev} (h : listenStep s ev = some s1) :
    SameControl s { s1 with wg := s.wg } ∧ s.listener ≠ .returned ∧
      s1.wg = if s1.listener = .returned then s.wg - 1 else s.wg := by
  unfold listenStep at h
  split at h
  · split at h
    · simp only [Option.some.injEq] at h
      subst h
      simp_all [SameControl]
    · cases h
  · rename_i pc hpc hl
    simp only [Option.map_eq_some'] at h
    obtain ⟨⟨s2, pc2⟩, hs, rfl⟩ := h
    have := syncStatesStep_frame hs
    simp_all [SameControl]
  · split at h
    · split_ifs at h <;> simp only [Option.some.injEq] at h <;> subst h <;>
        simp_all [SameControl, listenReturn]
    · cases h
  · split at h
    · simp only [Option.some.injEq] at h
      subst h
      rename_i ok
      cases ok <;> simp_all [SameControl]
    · cases h
  · split at h
    · simp only [Option.some.injEq] at h
      subst h
      simp_all [SameControl]
    · cases h
  · split at h
    · split_ifs at h
      simp only [Option.some.injEq] at h
      subst h
      simp_all [SameControl, listenReturn]
    · simp only [Option.some.injEq] at h
      subst h
      simp_all [SameControl]
    · cases h
  · simp only [Option.map_eq_some'] at h
    obtain ⟨⟨s2, next⟩, hs, rfl⟩ := h
    have := readStatesStep_frame hs
    cases next <;> simp_all [SameControl]
  · split at h
    · split_ifs at h
      simp only [Option.some.injEq] at h
      subst h
      simp_all [SameControl, listenReturn]
    · simp only [Option.some.injEq] at h
      subst h
      simp_all [SameControl]
    · cases h
  · cases h

theorem asyncStep_frame {s s1 : Sys} {i : Nat} {ev : Ev} (h : asyncStep s i ev = some s1) :
    SameControl s s1 ∧ s1.listener = s.listener := by
  unfold asyncStep at h
  split at h
  · cases h
  · simp only [Option.map_eq_some'] at h
    obtain ⟨⟨s2, pc2⟩, hs, rfl⟩ := h
    have := syncStatesStep_frame hs
    simp_all [SameControl]

theorem recv_frame {α : Type} {ch ch1 : Chan α} {v : Option α}
    (h : ch.recv = .done (v, ch1)) : ch1.closed = ch.closed ∧ ch1.cap = ch.cap := by
  unfold Chan.recv at h
  split at h
  · simp only [Attempt.done.injEq, Prod.mk.injEq] at h
    obtain ⟨_, rfl⟩ := h
    simp
  · split at h
    · simp only [Attempt.done.injEq, Prod.mk.injEq] at h
      obtain ⟨_, rfl⟩ := h
      simp
    · cases h

theorem runStep_frame {s s1 : Sys} (h : runStep s = some s1) :
    SameControl s s1 ∧ s1.listener = s.listener := by
  unfold runStep at h
  split at h
  · split at h
    · rename_i st ch hr
      simp only [Option.some.injEq] at h
      subst h
      have := recv_frame hr
      simp [SameControl, this]
    · rename_i ch hr
      simp only [Option.some.injEq] at h
      subst h
      have := recv_frame hr
      simp [SameControl, this]
    · cases h
  · cases h

theorem Inv_of_frame {s s1 : Sys} (hi : Inv s) (hc : SameControl s s1)
    (hl : s1.listener = s.listener) : Inv s1 := by
  obtain ⟨h1, h2, h3, h4, h5⟩ := hc
  constructor
  · rw [h2, hl]
    exact hi.counted
  · rw [h3, h1]
    exact hi.raised
  · rw [h3, hl]
    exact hi.joined
  · rw [h3, h4]
    exact hi.released
  · rw [h4, hl]
    exact hi.queue

theorem step_inv {s s1 : Sys} {a : Act} (hi : Inv s) (h : step s a = some s1) : Inv s1 := by
  by_cases hp : s.panicked.isSome = true
  · simp [step, hp] at h
  unfold step at h
  rw [if_neg hp] at h
  cases a with
  | listen ev =>
    simp only at h
    obtain ⟨⟨h1, h2, h3, h4, h5⟩, hne, hwg⟩ := listenStep_frame h
    simp only at h1 h2 h3 h4 h5
    have hw : s.wg = 1 := by
      rw [hi.counted]
      simp [hne]
    constructor
    · rw [hwg, hw]
    · rw [h3, h1]
      exact hi.raised
    · intro hc
      rw [h3] at hc
      exact absurd (hi.joined hc) hne
    · rw [h3, h4]
      exact hi.released
    · intro hc
      rw [h4] at hc
      exact absurd (hi.queue hc) hne
  | sync i ev =>
    simp only at h
    have := asyncStep_frame h
    exact Inv_of_frame hi this.1 this.2
  | run =>
    simp only at h
    have := runStep_frame h
    exact Inv_of_frame hi this.1 this.2
  | callClose =>
    simp only at h
    split at h
    · simp only [Option.some.injEq] at h
      subst h
      constructor
      · exact hi.counted
      · simp
      · simp
      · simp
      · exact hi.queue
    · cases h
  | close =>
    simp only at h
    unfold closeStep Chan.close at h
    split at h
    · rename_i hc
      split at h
      · rename_i ch hch
        split_ifs at hch
        simp only [Attempt.done.injEq] at hch
        simp only [Option.some.injEq] at h
        subst h hch
        constructor
        · exact hi.counted
        · simp
        · simp
        · simp
        · exact hi.queue
      · simp only [Option.some.injEq] at h
        subst h
        exact ⟨hi.counted, hi.raised, hi.joined, hi.released, hi.queue⟩
      · cases h
    · rename_i hc
      split_ifs at h with hw
      simp only [Option.some.injEq] at h
      subst h
      have hl : s.listener = .returned := by
        by_contra hne
        have := hi.counted
        rw [if_neg hne, hw] at this
        cases this
      constructor
      · exact hi.counted
      · intro _
        exact hi.raised (Or.inl hc)
      · intro _
        exact hl
      · simp
      · exact hi.queue
    · rename_i hc
      have hl : s.listener = .returned := hi.joined (Or.inl hc)
      split at h
      · rename_i ch hch
        split_ifs at hch
        simp only [Attempt.done.injEq] at hch
        simp only [Option.some.injEq] at h
        subst h hch
        constructor
        · exact hi.counted
        · intro _
          exact hi.raised (Or.inr (Or.inl hc))
        · intro _
          exact hl
        · simp
        · intro _
          exact hl
      · simp only [Option.some.injEq] at h
        subst h
        exact ⟨hi.counted, hi.raised, hi.joined, hi.released, hi.queue⟩
      · cases h
    · cases h

theorem exec_inv {s s1 : Sys} (acts : List Act) (hi : Inv s) (h : exec s acts = some s1) :
    Inv s1 := by
  induction acts generalizing s with
  | nil =>
    simp only [exec, Option.some.injEq] at h
    subst h
    exact hi
  | cons a rest ih =>
    simp only [exec, Option.bind_eq_some] at h
    obtain ⟨s2, hs, hr⟩ := h
    exact ih (step_inv hi hs) hr

theorem Inv_New : Inv New := by
  constructor <;> simp [New]

theorem Reachable.inv {s : Sys} (h : Reachable s) : Inv s := by
  obtain ⟨acts, h⟩ := h
  exact exec_inv acts Inv_New h

/-- While `readStates` is at `m.stateCh <- state`, the only move of `listen` is that send, and
it is enabled only when the queue is closed (it panics) or has free space. -/
theorem send_only {s s1 : Sys} {state : State} {ev : Ev}
    (hl : s.listener = .readStates (.send state)) (h : step s (.listen ev) = some s1) :
    ev = .tau ∧ (s.stateCh.closed = true ∨ s.stateCh.buf.length < s.stateCh.cap) := by
  by_cases hp : s.panicked.isSome = true
  · simp [step, hp] at h
  unfold step at h
  rw [if_neg hp] at h
  simp only [listenStep, hl, readStatesStep] at h
  cases ev with
  | tau =>
    simp only [readStatesStep, Option.map_eq_some'] at h
    obtain ⟨⟨s2, next⟩, ⟨s3, hs, _⟩, _⟩ := h
    refine ⟨rfl, ?_⟩
    unfold sendState Chan.send at hs
    by_contra hc
    push_neg at hc
    obtain ⟨hc1, hc2⟩ := hc
    simp [hc1, Nat.not_lt.mpr hc2] at hs
  | _ => simp [readStatesStep] at h

/-- With the queue open and full, `readStates` at its send has no move at all. -/
theorem send_blocked {s : Sys} {state : State}
    (hl : s.listener = .readStates (.send state)) (hc : s.stateCh.closed = false)
    (hfull : s.stateCh.cap ≤ s.stateCh.buf.length) (ev : Ev) : step s (.listen ev) = none := by
  cases h : step s (.listen ev) with
  | none => rfl
  | some s1 =>
    have := (send_only hl h).2
    rcases this with h1 | h1
    · rw [hc] at h1
      cases h1
    · omega

/-- C4, on the code: when the live sequence ends without a stop signal, `listen` waits the
fixed delay and calls `Client.Events` again without any call of `Client.States` in between.
In the run where the stream ends after two records the client calls are States, Events,
Events; and from any state in which `readStates` has returned to the wait with the stop signal
not raised, the only move of `listen` is the timer, after which it checks the stop signal and
calls `Events`, the log of client calls growing by that call alone. -/
theorem listen_reconnects_without_snapshot :
    (exec New (reconnectRun.take 10)).map (fun s => (s.calls, s.listener, s.stateCh.buf)) =
      some ([.States, .Events], .reconnectWait, [kitchenOn, kitchenOn]) ∧
    (exec New reconnectRun).map (fun s => (s.calls, s.listener, s.done.closed, s.asyncs)) =
      some ([.States, .Events, .Events], .readStates .select, false, []) ∧
    (∀ s : Sys, s.panicked = none → s.listener = .reconnectWait → s.done.closed = false →
      (∀ ev s1, step s (.listen ev) = some s1 → ev = .timer) ∧
      ∀ ok, ∃ s1 s2 s3, step s (.listen .timer) = some s1 ∧ step s1 (.listen .tau) = some s2 ∧
        step s2 (.listen (.events ok)) = some s3 ∧ s3.calls = s.calls ++ [.Events] ∧
        s3.asyncs = s.asyncs) := by
  refine ⟨by decide, by decide, ?_⟩
  intro s hp hl hd
  constructor
  · intro ev s1 h
    cases ev <;> simp [step, hp, listenStep, hl, hd] at h
    rfl
  · intro ok
    refine ⟨{ s with listener := .checkDone }, { s with listener := .events },
      { s with calls := s.calls ++ [.Events],
               listener := if ok then .readStates .select else .goSyncStates }, ?_, ?_, ?_, rfl, rfl⟩
    · simp [step, hp, listenStep, hl]
    · simp [step, hp, listenStep, hd]
    · simp [step, hp, listenStep]

/-- C5 fails as stated: in the run where Close is called, returns, and is called again, the
engine is stopped after the first call (both channels closed, no panic) and the second call
panics with "close of closed channel". -/
theorem Close_twice_panics :
    exec New (closeTwiceRun.take 7) = some stoppedState ∧
    (exec New closeTwiceRun).map (fun s => (s.panicked, s.closer)) =
      some (some .closeOfClosedChannel, .closeDone) := by
  constructor <;> decide

/-- C5 as amended: raising the stop signal is raise-once. In every reachable state in which a
Close has returned and the process has not crashed, the stop signal is raised, the queue is
closed and `listen` has returned; a second call of Close is possible, and its first statement,
`close(m.done)`, panics with "close of closed channel", after which nothing runs. -/
theorem Close_again_panics (s : Sys) (hr : Reachable s) (hc : s.closer = .returned)
    (hp : s.panicked = none) :
    s.done.closed = true ∧ s.stateCh.closed = true ∧ s.listener = .returned ∧
    ∃ s1 s2, step s .callClose = some s1 ∧ step s1 .close = some s2 ∧
      s2.panicked = some .closeOfClosedChannel ∧ ∀ a, step s2 a = none := by
  have hi := hr.inv
  have hd : s.done.closed = true := hi.raised (Or.inr (Or.inr hc))
  refine ⟨hd, hi.released hc, hi.joined (Or.inr hc), { s with closer := .closeDone },
    { s with closer := .closeDone, panicked := some .closeOfClosedChannel }, ?_, ?_, rfl, ?_⟩
  · simp [step, hp, hc]
  · simp [step, hp, closeStep, Chan.close, hd]
  · intro a
    simp [step]

/-- The stopped state of `closeTwiceRun` is reachable, a Close has returned in it, and a second
Close panics there. -/
theorem Close_again_panics_witness :
    Reachable stoppedState ∧ stoppedState.closer = .returned ∧ stoppedState.panicked = none ∧
    ∃ s1 s2, step stoppedState .callClose = some s1 ∧ step s1 .close = some s2 ∧
      s2.panicked = some .closeOfClosedChannel ∧ ∀ a, step s2 a = none :=
  ⟨⟨closeTwiceRun.take 7, by decide⟩, rfl, rfl,
    (Close_again_panics stoppedState ⟨closeTwiceRun.take 7, by decide⟩ rfl rfl).2.2.2⟩

/-- C6, on the code: the wait group of Close covers `listen` (in every reachable state the
queue is closed only after `listen`, with its `readStates` and its own `syncStates`, has
returned), but not the goroutine started by `go m.syncStates(c)`: in the run where the stream
is not established and Close is called during the wait, Close returns with the queue closed
while that goroutine still has a record to send, and its send panics with "send on closed
channel". -/
theorem queue_closed_before_started_snapshot_ends :
    (∀ s : Sys, Reachable s → s.stateCh.closed = true → s.listener = .returned) ∧
    (exec New (lateSnapshotRun.take 11)).map
        (fun s => (s.closer, s.stateCh.closed, s.listener, s.asyncs, s.panicked)) =
      some (.returned, true, .returned, [.range [kitchenOn]], none) ∧
    (exec New lateSnapshotRun).map (fun s => s.panicked) = some (some .sendOnClosedChannel) := by
  refine ⟨fun s hr hc => hr.inv.queue hc, by decide, by decide⟩

/-- C7 fails as stated: in the run where a snapshot of 100 rows fills the queue, `readStates`
takes a record from the stream and Close raises the stop signal, `readStates` is at its send on
a full queue with the stop signal raised, and `listen` has no move at all: it cannot return
before the consumer frees a slot. -/
theorem readStates_blocked_on_full_queue :
    ∃ s, exec New fullQueueRun = some s ∧ s.done.closed = true ∧ s.panicked = none ∧
      s.listener = .readStates (.send kitchenOn) ∧ s.stateCh.buf.length = s.stateCh.cap ∧
      ∀ ev, step s (.listen ev) = none := by
  have h : (exec New fullQueueRun).map
      (fun s => (s.done.closed, s.panicked, s.listener, s.stateCh.closed,
        decide (s.stateCh.buf.length = s.stateCh.cap))) =
      some (true, none, .readStates (.send kitchenOn), false, true) := by decide
  simp only [Option.map_eq_some', Prod.mk.injEq, decide_eq_true_eq] at h
  obtain ⟨s, hs, h1, h2, h3, h4, h5⟩ := h
  exact ⟨s, hs, h1, h2, h3, h5, send_blocked h3 h4 (by omega)⟩

/-- C7 as amended: `readStates` observes the stop signal at its `select` only. In every state
in which the stop signal is raised and `readStates` waits at its `select`, it can return at once,
leaving the queue untouched, and `listen` then returns; once it has taken a record from the
stream its only move is the send on the queue, which needs the queue to have free space (or to
be closed, and then panics), whether or not the stop signal is raised. -/
theorem readStates_stops_at_select (s : Sys) (hp : s.panicked = none)
    (hd : s.done.closed = true) :
    (s.listener = .readStates .select →
      ∃ s1 s2, step s (.listen .done) = some s1 ∧ s1.listener = .reconnectWait ∧
        s1.stateCh = s.stateCh ∧ step s1 (.listen .done) = some s2 ∧
        s2.listener = .returned ∧ s2.stateCh = s.stateCh) ∧
    (∀ state ev s1, s.listener = .readStates (.send state) → step s (.listen ev) = some s1 →
      ev = .tau ∧ (s.stateCh.closed = true ∨ s.stateCh.buf.length < s.stateCh.cap)) := by
  constructor
  · intro hl
    refine ⟨{ s with listener := .reconnectWait },
      listenReturn { s with listener := .reconnectWait }, ?_, rfl, rfl, ?_, rfl, rfl⟩
    · simp [step, hp, listenStep, hl, readStatesStep, hd]
    · simp [step, hp, listenStep, hd]
  · intro state ev s1 hl h
    exact send_only hl h

/-- At the end of `stopAtSelectRun` the stop signal is raised while `readStates` is at its
`select`, and `listen` returns in two moves. -/
theorem readStates_stops_at_select_witness :
    exec New stopAtSelectRun = some stopAtSelectState ∧
    stopAtSelectState.panicked = none ∧ stopAtSelectState.done.closed = true ∧
    stopAtSelectState.listener = .readStates .select ∧
    ∃ s1 s2, step stopAtSelectState (.listen .done) = some s1 ∧ s1.listener = .reconnectWait ∧
      s1.stateCh = stopAtSelectState.stateCh ∧ step s1 (.listen .done) = some s2 ∧
      s2.listener = .returned ∧ s2.stateCh = stopAtSelectState.stateCh :=
  ⟨by decide, rfl, rfl, rfl, (readStates_stops_at_select stopAtSelectState rfl rfl).1 rfl⟩

end Floorplan
